import Mathlib

/-
Verification of the dataproxyclient repository (src/main.go): a sequential
paginated-fetch client. The Go program's external effects (one HTTP POST per
loop iteration, JSON decode of the response body) are embedded shallowly: the
transport is a `post` function (for a single call) or a `script` listing the
transport's response to each successive POST (for the loop). time.Duration
values are modelled as Nat nanosecond counts; Go `error` values as `Option
String` carrying the message.
-/

namespace DataProxy

/-- Go struct `Request`: the POST body `{hash, token}` (src/main.go:13). -/
structure Request where
  hash : String
  token : String
  deriving DecidableEq

/-- Go struct `Column` (src/main.go:18). -/
structure Column where
  name : String
  type : String
  position : Int
  deriving DecidableEq

/-- Go struct `Header` (src/main.go:24). -/
structure Header where
  columns : List Column
  deriving DecidableEq

/-- Go struct `Data` (src/main.go:28): header plus records, each record a flat
list of string field values. -/
structure Data where
  header : Header
  records : List (List String)
  deriving DecidableEq

/-- Go struct `Meta` (src/main.go:33): `next` is the next-page token, with the
empty string meaning no further pages. -/
structure Meta where
  next : String
  deriving DecidableEq

/-- Go struct `ResultSet` (src/main.go:37): the decoded response for one page. -/
structure ResultSet where
  meta : Meta
  data : Data
  deriving DecidableEq

/-- Embedding of `json.Marshal` on `Request` (src/main.go:51). For this struct
of two plain string fields marshalling always succeeds; the body text is the
obvious JSON object (string escaping is not modelled, no claim depends on the
body bytes). -/
def marshalRequest (r : Request) : String :=
  "\x7b\"hash\":\"" ++ r.hash ++ "\",\"token\":\"" ++ r.token ++ "\"\x7d"

/-- Outcome of one transport round-trip, as `consumePage` observes it:
`http.Post` fails (src/main.go:59), the body fails to decode (src/main.go:67),
or a `ResultSet` is decoded, in which case the environment also supplies the
two measured wall-clock durations (request, decode) in nanoseconds. -/
inductive FetchResult where
  | postError (msg : String)
  | decodeError (msg : String)
  | success (result : ResultSet) (requestDuration : Nat) (unmarshalDuration : Nat)
  deriving DecidableEq

/-- The error message of a failed transport outcome, if any. -/
def FetchResult.errMsg : FetchResult → Option String
  | .postError e => some e
  | .decodeError e => some e
  | .success _ _ _ => none

/-- The non-error quadruple returned by `consumePage` (src/main.go:46):
next-page token, record count, request duration, unmarshal duration. -/
structure PageResult where
  nextToken : String
  recordCount : Nat
  requestDuration : Nat
  unmarshalDuration : Nat
  deriving DecidableEq

/-- Go `consumePage` (src/main.go:46-74). `post` is the transport: it receives
the URL `url ++ "/page"` and the marshalled body, and yields the round-trip
outcome. On any error every other output is zeroed, exactly as each Go
`return "", 0, 0, 0, err` does. -/
def consumePage (post : String → String → FetchResult) (url hash token : String) :
    PageResult × Option String :=
  let jsonData := marshalRequest ⟨hash, token⟩
  match post (url ++ "/page") jsonData with
  | .postError e => (⟨"", 0, 0, 0⟩, some e)
  | .decodeError e => (⟨"", 0, 0, 0⟩, some e)
  | .success rs rd ud => (⟨rs.meta.next, rs.data.records.length, rd, ud⟩, none)

/-- The quintuple returned by `consumeAllPages` (src/main.go:79): page count,
per-page record counts, total request duration, total unmarshal duration, and
the error (if any). On the error path Go returns `0, nil, 0, 0, err`; the nil
slice is modelled as `[]`. -/
structure ConsumeResult where
  pageCount : Nat
  recordCounts : List Nat
  totalDurationRequest : Nat
  totalUnmarshalDuration : Nat
  err : Option String
  deriving DecidableEq

/-- The loop body of `consumeAllPages` (src/main.go:85-96), recursing on the
`script` of successive transport responses. The Go guard `len(nextToken) > 0`
appears as its negation `nextToken = ""` terminating the loop. `none` in the
first component means the loop was still running when the script ran out (an
execution the finite script does not model). The second component instruments
the loop with the list of tokens passed to `consumePage`, in call order; the
Go code returns only the first component. -/
def consumeAllPagesAux (url hash : String) (script : List FetchResult)
    (nextToken : String) (pageCount : Nat) (recordCounts : List Nat)
    (totalDurationRequest totalUnmarshalDuration : Nat) :
    Option ConsumeResult × List String :=
  if nextToken = "" then
    (some ⟨pageCount, recordCounts, totalDurationRequest, totalUnmarshalDuration, none⟩, [])
  else
    match script with
    | [] => (none, [])
    | r :: rest =>
      let pr := consumePage (fun _ _ => r) url hash nextToken
      match pr.2 with
      | some e => (some ⟨0, [], 0, 0, some e⟩, [nextToken])
      | none =>
        let tail := consumeAllPagesAux url hash rest pr.1.nextToken (pageCount + 1)
          (recordCounts ++ [pr.1.recordCount])
          (totalDurationRequest + pr.1.requestDuration)
          (totalUnmarshalDuration + pr.1.unmarshalDuration)
        (tail.1, nextToken :: tail.2)

/-- Go `consumeAllPages` (src/main.go:79-99): run the loop from `firstToken`
with all accumulators zeroed. -/
def consumeAllPages (script : List FetchResult) (url hash firstToken : String) :
    Option ConsumeResult × List String :=
  consumeAllPagesAux url hash script firstToken 0 [] 0 0

/-- Go `printConsumption` (src/main.go:102-118), as the list of lines written
to standard output. `durStr` abstracts Go's `%v` rendering of a
`time.Duration`; every other `%v` argument is a string or a non-negative
integer, rendered by `toString`. -/
def printConsumption (durStr : Nat → String) (hash firstToken : String)
    (pageCount : Nat) (recordCounts : List Nat)
    (totalDurationRequest totalUnmarshalDuration : Nat) (err : Option String) :
    List String :=
  let head := "Hash: " ++ hash ++ ", First Token: " ++ firstToken
  match err with
  | some e => [head, "Error: " ++ e]
  | none =>
    let records := recordCounts.foldl (fun a b => a + b) 0
    [head,
     "  Pages: " ++ toString pageCount,
     "  Records: " ++ toString records,
     "  Duration to retrieve pages: " ++ durStr totalDurationRequest,
     "  Duration to unmarshal pages: " ++ durStr totalUnmarshalDuration]

/-- Observable behaviour of `main`: a `log.Fatal` (message printed, nonzero
exit), the lines printed by `printConsumption`, or a run the finite script
does not cover. -/
inductive MainResult where
  | fatal (msg : String)
  | printed (lines : List String)
  | offScript
  deriving DecidableEq

/-- Go `main` (src/main.go:120-135) after flag parsing: `url`, `hash` and
`firstToken` are the parsed flag values (a flag left off the command line
yields its default: "http://localhost:8090" for url, "" for hash and token).
The argument check at src/main.go:128 runs before any transport activity, so
the `script` is consulted only on the non-fatal branch. -/
def main (durStr : Nat → String) (script : List FetchResult)
    (url hash firstToken : String) : MainResult :=
  if url.length = 0 ∨ hash.length = 0 ∨ firstToken.length = 0 then
    .fatal "invalid arguments"
  else
    match consumeAllPages script url hash firstToken with
    | (none, _) => .offScript
    | (some r, _) =>
      .printed (printConsumption durStr hash firstToken r.pageCount r.recordCounts
        r.totalDurationRequest r.totalUnmarshalDuration r.err)

/-- A successfully decoded page together with its two measured durations:
the shape of one `success` script entry. -/
structure PageReply where
  result : ResultSet
  requestDuration : Nat
  unmarshalDuration : Nat
  deriving DecidableEq

/-- View a `PageReply` as the transport outcome of one call. -/
def PageReply.toFetch (p : PageReply) : FetchResult :=
  .success p.result p.requestDuration p.unmarshalDuration

/-- A reply sequence is a well-formed N-page pagination: the next-token is
non-empty on every page but the last and empty on the last. -/
def chainOk : List PageReply → Bool
  | [] => true
  | p :: rest =>
    if rest.isEmpty then p.result.meta.next == ""
    else (p.result.meta.next != "") && chainOk rest

/-- Loop exit: with an empty token the loop returns the accumulators as-is and
invokes `consumePage` on nothing. -/
theorem consumeAllPagesAux_stop (url hash : String) (script : List FetchResult)
    (pc : Nat) (rc : List Nat) (tr td : Nat) :
    consumeAllPagesAux url hash script "" pc rc tr td = (some ⟨pc, rc, tr, td, none⟩, []) := by
  unfold consumeAllPagesAux
  simp

/-- Loop step on a failing transport call: the loop abandons every accumulator
and returns the error; the failing call is the last one made. -/
theorem consumeAllPagesAux_error_step (url hash : String) (fr : FetchResult)
    (rest : List FetchResult) (tok e : String) (htok : tok ≠ "")
    (hfr : fr.errMsg = some e) (pc : Nat) (rc : List Nat) (tr td : Nat) :
    consumeAllPagesAux url hash (fr :: rest) tok pc rc tr td =
      (some ⟨0, [], 0, 0, some e⟩, [tok]) := by
  cases fr with
  | postError m =>
    simp [FetchResult.errMsg] at hfr
    unfold consumeAllPagesAux
    simp [htok, consumePage, hfr]
  | decodeError m =>
    simp [FetchResult.errMsg] at hfr
    unfold consumeAllPagesAux
    simp [htok, consumePage, hfr]
  | success rs rd ud =>
    simp [FetchResult.errMsg] at hfr

/-- Loop step on a successful transport call: the page is counted, its record
count appended and its durations added, and the loop continues with the page's
next-token. -/
theorem consumeAllPagesAux_success_step (url hash : String) (rs : ResultSet)
    (rd ud : Nat) (rest : List FetchResult) (tok : String) (htok : tok ≠ "")
    (pc : Nat) (rc : List Nat) (tr td : Nat) :
    consumeAllPagesAux url hash (FetchResult.success rs rd ud :: rest) tok pc rc tr td =
      ((consumeAllPagesAux url hash rest rs.meta.next (pc + 1)
          (rc ++ [rs.data.records.length]) (tr + rd) (td + ud)).1,
        tok :: (consumeAllPagesAux url hash rest rs.meta.next (pc + 1)
          (rc ++ [rs.data.records.length]) (tr + rd) (td + ud)).2) := by
  conv =>
    lhs
    unfold consumeAllPagesAux
  simp [htok, consumePage]

/-- Unfolding of `chainOk` on a single reply. -/
theorem chainOk_single (p : PageReply) :
    chainOk [p] = (p.result.meta.next == "") := by
  rw [chainOk]
  simp

/-- Unfolding of `chainOk` on two or more replies. -/
theorem chainOk_cons_cons (p q : PageReply) (rest : List PageReply) :
    chainOk (p :: q :: rest) = ((p.result.meta.next != "") && chainOk (q :: rest)) := by
  conv_lhs => rw [chainOk]
  simp

/-- The loop, started on any accumulator state with a non-empty token, runs a
well-formed `chainOk` reply sequence to completion, adding one page per reply. -/
theorem consumeAllPagesAux_chain (url hash : String) (pages : List PageReply) :
    ∀ tok : String, tok ≠ "" → pages ≠ [] → chainOk pages = true →
    ∀ (pc : Nat) (rc : List Nat) (tr td : Nat),
    (consumeAllPagesAux url hash (pages.map PageReply.toFetch) tok pc rc tr td).1 =
      some ⟨pc + pages.length,
            rc ++ pages.map (fun p => p.result.data.records.length),
            tr + (pages.map PageReply.requestDuration).sum,
            td + (pages.map PageReply.unmarshalDuration).sum, none⟩ := by
  induction pages with
  | nil =>
    intro tok htok hne
    exact absurd rfl hne
  | cons p rest ih =>
    intro tok htok _ hchain pc rc tr td
    rw [List.map_cons, PageReply.toFetch,
      consumeAllPagesAux_success_step url hash p.result p.requestDuration
        p.unmarshalDuration (rest.map PageReply.toFetch) tok htok pc rc tr td]
    cases rest with
    | nil =>
      rw [chainOk_single] at hchain
      simp only [beq_iff_eq] at hchain
      simp [hchain, consumeAllPagesAux_stop]
    | cons q rest' =>
      rw [chainOk_cons_cons] at hchain
      simp only [Bool.and_eq_true, bne_iff_ne, ne_eq] at hchain
      rw [ih p.result.meta.next hchain.1 (by simp) hchain.2]
      simp only [Option.some.injEq, ConsumeResult.mk.injEq, List.map_cons, List.sum_cons,
        List.length_cons, List.append_assoc, List.singleton_append, and_true, true_and]
      omega

/-- C1: for a well-formed N-page reply sequence (next-token non-empty on pages
1..N-1, empty exactly on page N) and a non-empty first token, `consumeAllPages`
succeeds with pageCount = N, the per-page record counts in fetch order, and the
summed durations. -/
theorem consumeAllPages_chain (pages : List PageReply) (url hash firstToken : String)
    (hne : pages ≠ []) (hft : firstToken ≠ "") (hchain : chainOk pages = true) :
    (consumeAllPages (pages.map PageReply.toFetch) url hash firstToken).1 =
      some ⟨pages.length,
            pages.map (fun p => p.result.data.records.length),
            (pages.map PageReply.requestDuration).sum,
            (pages.map PageReply.unmarshalDuration).sum, none⟩ := by
  have h := consumeAllPagesAux_chain url hash pages firstToken hft hne hchain 0 [] 0 0
  simpa [consumeAllPages] using h

/-- Witness for C1: the spec scenario — page 1 with 3 records and next token
"abc", page 2 with 5 records and next token "" — yields pageCount 2, record
counts [3, 5], and durations 1+3 and 2+4. -/
theorem consumeAllPages_chain_witness :
    (consumeAllPages
        (([⟨⟨⟨"abc"⟩, ⟨⟨[]⟩, [["a"], ["b"], ["c"]]⟩⟩, 1, 2⟩,
           ⟨⟨⟨""⟩, ⟨⟨[]⟩, [["d"], ["e"], ["f"], ["g"], ["h"]]⟩⟩, 3, 4⟩] :
            List PageReply).map PageReply.toFetch)
      "u" "h" "t0").1 = some ⟨2, [3, 5], 4, 6, none⟩ := by
  have h := consumeAllPages_chain
    [⟨⟨⟨"abc"⟩, ⟨⟨[]⟩, [["a"], ["b"], ["c"]]⟩⟩, 1, 2⟩,
     ⟨⟨⟨""⟩, ⟨⟨[]⟩, [["d"], ["e"], ["f"], ["g"], ["h"]]⟩⟩, 3, 4⟩]
    "u" "h" "t0" (by decide) (by decide) (by decide)
  simpa using h

/-- C3: with an empty first token the loop body never runs: zero pages, empty
record counts, zero durations, no error, and no call to `consumePage`. -/
theorem consumeAllPages_empty_firstToken (script : List FetchResult) (url hash : String) :
    consumeAllPages script url hash "" = (some ⟨0, [], 0, 0, none⟩, []) := by
  unfold consumeAllPages consumeAllPagesAux
  simp

/-- C5: whenever the transport outcome for a call is an error (failed POST or
failed decode), `consumePage` returns that error with every other output
zeroed: empty next token, record count 0, both durations 0. -/
theorem consumePage_error_zeroed (post : String → String → FetchResult)
    (url hash token e : String)
    (h : (post (url ++ "/page") (marshalRequest ⟨hash, token⟩)).errMsg = some e) :
    consumePage post url hash token = (⟨"", 0, 0, 0⟩, some e) := by
  cases hp : post (url ++ "/page") (marshalRequest ⟨hash, token⟩) with
  | postError m =>
    simp [FetchResult.errMsg, hp] at h
    simp [consumePage, hp, h]
  | decodeError m =>
    simp [FetchResult.errMsg, hp] at h
    simp [consumePage, hp, h]
  | success rs rd ud =>
    simp [FetchResult.errMsg, hp] at h

/-- The loop, after any prefix of successful pages whose next-tokens are all
non-empty, aborts on the first failing call: every accumulator is abandoned,
the error is returned, and the calls made are exactly the prefix plus the
failing one. -/
theorem consumeAllPagesAux_error_chain (url hash : String) (fr : FetchResult)
    (e : String) (hfr : fr.errMsg = some e) (rest : List FetchResult)
    (pres : List PageReply) :
    ∀ tok : String, tok ≠ "" → (∀ p ∈ pres, p.result.meta.next ≠ "") →
    ∀ (pc : Nat) (rc : List Nat) (tr td : Nat),
    consumeAllPagesAux url hash (pres.map PageReply.toFetch ++ fr :: rest) tok pc rc tr td =
      (some ⟨0, [], 0, 0, some e⟩, tok :: pres.map (fun p => p.result.meta.next)) := by
  induction pres with
  | nil =>
    intro tok htok _ pc rc tr td
    simpa using consumeAllPagesAux_error_step url hash fr rest tok e htok hfr pc rc tr td
  | cons p pres' ih =>
    intro tok htok hpres pc rc tr td
    rw [List.map_cons, List.cons_append, PageReply.toFetch,
      consumeAllPagesAux_success_step url hash p.result p.requestDuration p.unmarshalDuration
        _ tok htok pc rc tr td,
      ih p.result.meta.next (hpres p (by simp)) (fun q hq => hpres q (by simp [hq]))]
    simp

/-- C2: if any page fetch fails, `consumeAllPages` abandons all accumulated
state and returns pageCount 0, empty recordCounts, zero durations and the
underlying error; the invocation trace is exactly the successful prefix plus
the failing call, so no page after the failing one is fetched or counted. -/
theorem consumeAllPages_error (pres : List PageReply) (fr : FetchResult)
    (rest : List FetchResult) (url hash firstToken e : String)
    (hft : firstToken ≠ "") (hfr : fr.errMsg = some e)
    (hpres : ∀ p ∈ pres, p.result.meta.next ≠ "") :
    consumeAllPages (pres.map PageReply.toFetch ++ fr :: rest) url hash firstToken =
      (some ⟨0, [], 0, 0, some e⟩, firstToken :: pres.map (fun p => p.result.meta.next)) ∧
    (firstToken :: pres.map (fun p => p.result.meta.next)).length = pres.length + 1 := by
  constructor
  · unfold consumeAllPages
    exact consumeAllPagesAux_error_chain url hash fr e hfr rest pres firstToken hft hpres 0 [] 0 0
  · simp

/-- Witness for C2: one successful page, then a decode failure, with a further
page available behind the failure; the result is zeroed with the error, and
only the first two calls were made. -/
theorem consumeAllPages_error_witness :
    consumeAllPages
        (([⟨⟨⟨"abc"⟩, ⟨⟨[]⟩, [["a"], ["b"], ["c"]]⟩⟩, 1, 2⟩] : List PageReply).map
            PageReply.toFetch ++
          FetchResult.decodeError "bad json" ::
            [FetchResult.success ⟨⟨""⟩, ⟨⟨[]⟩, [["z"]]⟩⟩ 7 8])
        "u" "h" "t0" =
      (some ⟨0, [], 0, 0, some "bad json"⟩, ["t0", "abc"]) := by
  have h := consumeAllPages_error
    [⟨⟨⟨"abc"⟩, ⟨⟨[]⟩, [["a"], ["b"], ["c"]]⟩⟩, 1, 2⟩]
    (FetchResult.decodeError "bad json")
    [FetchResult.success ⟨⟨""⟩, ⟨⟨[]⟩, [["z"]]⟩⟩ 7 8]
    "u" "h" "t0" "bad json" (by decide) rfl (by decide)
  simpa using h.1

/-- Every token the loop passes to `consumePage` is non-empty, whatever the
script, the starting token and the accumulator state. -/
theorem consumeAllPagesAux_trace_ne (url hash : String) (script : List FetchResult) :
    ∀ (tok : String) (pc : Nat) (rc : List Nat) (tr td : Nat),
    "" ∉ (consumeAllPagesAux url hash script tok pc rc tr td).2 := by
  induction script with
  | nil =>
    intro tok pc rc tr td
    by_cases htok : tok = ""
    · subst htok
      simp [consumeAllPagesAux_stop]
    · unfold consumeAllPagesAux
      simp [htok]
  | cons fr rest ih =>
    intro tok pc rc tr td
    by_cases htok : tok = ""
    · subst htok
      simp [consumeAllPagesAux_stop]
    · cases fr with
      | postError m =>
        rw [consumeAllPagesAux_error_step url hash (FetchResult.postError m) rest tok m htok rfl]
        simp only [List.mem_singleton]
        exact fun h => htok h.symm
      | decodeError m =>
        rw [consumeAllPagesAux_error_step url hash (FetchResult.decodeError m) rest tok m htok rfl]
        simp only [List.mem_singleton]
        exact fun h => htok h.symm
      | success rs rd ud =>
        rw [consumeAllPagesAux_success_step url hash rs rd ud rest tok htok]
        simp only [List.mem_cons, not_or]
        exact ⟨fun h => htok h.symm,
          ih rs.meta.next (pc + 1) (rc ++ [rs.data.records.length]) (tr + rd) (td + ud)⟩

/-- C4: in every execution of the pagination loop, `consumePage` is never
invoked with an empty token: the empty token terminates the loop and never
appears in the invocation trace. -/
theorem consumeAllPages_no_empty_token_call (script : List FetchResult)
    (url hash firstToken : String) :
    "" ∉ (consumeAllPages script url hash firstToken).2 := by
  unfold consumeAllPages
  exact consumeAllPagesAux_trace_ne url hash script firstToken 0 [] 0 0

/-- Loop invariant: if the page-count accumulator equals the length of the
record-counts accumulator, the same holds of any result the loop returns, on
the success exit and on the error exit alike. -/
theorem consumeAllPagesAux_count_len (url hash : String) (script : List FetchResult) :
    ∀ (tok : String) (pc : Nat) (rc : List Nat) (tr td : Nat) (r : ConsumeResult),
    pc = rc.length →
    (consumeAllPagesAux url hash script tok pc rc tr td).1 = some r →
    r.pageCount = r.recordCounts.length := by
  induction script with
  | nil =>
    intro tok pc rc tr td r hinv heq
    by_cases htok : tok = ""
    · subst htok
      rw [consumeAllPagesAux_stop] at heq
      simp only [Option.some.injEq] at heq
      subst heq
      simpa using hinv
    · unfold consumeAllPagesAux at heq
      simp [htok] at heq
  | cons fr rest ih =>
    intro tok pc rc tr td r hinv heq
    by_cases htok : tok = ""
    · subst htok
      rw [consumeAllPagesAux_stop] at heq
      simp only [Option.some.injEq] at heq
      subst heq
      simpa using hinv
    · cases fr with
      | postError m =>
        rw [consumeAllPagesAux_error_step url hash (FetchResult.postError m) rest tok m htok rfl] at heq
        simp only [Option.some.injEq] at heq
        subst heq
        simp
      | decodeError m =>
        rw [consumeAllPagesAux_error_step url hash (FetchResult.decodeError m) rest tok m htok rfl] at heq
        simp only [Option.some.injEq] at heq
        subst heq
        simp
      | success rs rd ud =>
        rw [consumeAllPagesAux_success_step url hash rs rd ud rest tok htok] at heq
        exact ih rs.meta.next (pc + 1) (rc ++ [rs.data.records.length]) (tr + rd) (td + ud)
          r (by simp [hinv]) heq

/-- C9: whenever `consumeAllPages` returns a result — on the success exit or
the error exit — its pageCount equals the length of its recordCounts. -/
theorem consumeAllPages_pageCount_eq_length (script : List FetchResult)
    (url hash firstToken : String) (r : ConsumeResult)
    (h : (consumeAllPages script url hash firstToken).1 = some r) :
    r.pageCount = r.recordCounts.length := by
  unfold consumeAllPages at h
  exact consumeAllPagesAux_count_len url hash script firstToken 0 [] 0 0 r rfl h

/-- Witness for C9 at a concrete one-page run. -/
theorem consumeAllPages_pageCount_eq_length_witness :
    (⟨1, [2], 5, 6, none⟩ : ConsumeResult).pageCount =
      (⟨1, [2], 5, 6, none⟩ : ConsumeResult).recordCounts.length :=
  consumeAllPages_pageCount_eq_length
    [FetchResult.success ⟨⟨""⟩, ⟨⟨[]⟩, [["x"], ["y"]]⟩⟩ 5 6] "u" "h" "t0"
    ⟨1, [2], 5, 6, none⟩ (by decide)

/-- Witness for C5 at a concrete failing transport. -/
theorem consumePage_error_zeroed_witness :
    consumePage (fun _ _ => .postError "boom") "u" "h" "t"
      = (⟨"", 0, 0, 0⟩, some "boom") :=
  consumePage_error_zeroed (fun _ _ => .postError "boom") "u" "h" "t" "boom" rfl

/-- Folding addition from any starting accumulator adds the list sum. -/
theorem foldl_add_eq_add_sum (l : List Nat) :
    ∀ a : Nat, l.foldl (fun x y => x + y) a = a + l.sum := by
  induction l with
  | nil =>
    intro a
    simp
  | cons x xs ih =>
    intro a
    simp [List.foldl_cons, ih, List.sum_cons]
    omega

/-- C6: in the success case the Records line printed by `printConsumption`
reports exactly the sum of the per-page record counts. -/
theorem printConsumption_records_sum (durStr : Nat → String) (hash firstToken : String)
    (pageCount : Nat) (recordCounts : List Nat) (tr td : Nat) :
    (printConsumption durStr hash firstToken pageCount recordCounts tr td none)[2]? =
      some ("  Records: " ++ toString recordCounts.sum) := by
  simp [printConsumption, foldl_add_eq_add_sum]

/-- C7: `printConsumption` always prints the hash/first-token line first; with
an error present exactly one error line follows and nothing further; otherwise
the four summary lines follow, each with its fixed label. -/
theorem printConsumption_format (durStr : Nat → String) (hash firstToken : String)
    (pageCount : Nat) (recordCounts : List Nat) (tr td : Nat) :
    (∀ e, printConsumption durStr hash firstToken pageCount recordCounts tr td (some e) =
      ["Hash: " ++ hash ++ ", First Token: " ++ firstToken,
       "Error: " ++ e]) ∧
    printConsumption durStr hash firstToken pageCount recordCounts tr td none =
      ["Hash: " ++ hash ++ ", First Token: " ++ firstToken,
       "  Pages: " ++ toString pageCount,
       "  Records: " ++ toString recordCounts.sum,
       "  Duration to retrieve pages: " ++ durStr tr,
       "  Duration to unmarshal pages: " ++ durStr td] := by
  constructor
  · intro e
    simp [printConsumption]
  · simp [printConsumption, foldl_add_eq_add_sum]

/-- C8: a missing or empty url, hash or token flag value makes `main` exit
fatally with "invalid arguments"; the result is the same for every transport
script, so the fatal exit precedes and excludes any HTTP call or page fetch. -/
theorem main_invalid_arguments (durStr : Nat → String) (script : List FetchResult)
    (url hash firstToken : String)
    (h : url = "" ∨ hash = "" ∨ firstToken = "") :
    main durStr script url hash firstToken = MainResult.fatal "invalid arguments" := by
  unfold main
  rcases h with h | h | h <;> simp [h]

/-- Witness for C8: the spec scenario of an empty hash flag. -/
theorem main_invalid_arguments_witness :
    main toString [] "http://localhost:8090" "" "t" = MainResult.fatal "invalid arguments" :=
  main_invalid_arguments toString [] "http://localhost:8090" "" "t" (Or.inr (Or.inl rfl))

/-- C10: the header of a decoded response never influences `consumePage`: two
successful responses that agree on meta.next and data.records but carry
arbitrary (different) headers produce identical outputs. -/
theorem consumePage_header_independent (rs1 rs2 : ResultSet) (rd ud : Nat)
    (url hash token : String)
    (hnext : rs1.meta.next = rs2.meta.next)
    (hrec : rs1.data.records = rs2.data.records) :
    consumePage (fun _ _ => FetchResult.success rs1 rd ud) url hash token =
      consumePage (fun _ _ => FetchResult.success rs2 rd ud) url hash token := by
  simp [consumePage, hnext, hrec]

/-- Witness for C10: two responses with visibly different headers (one column
versus none) yield the same `consumePage` output. -/
theorem consumePage_header_independent_witness :
    consumePage (fun _ _ =>
        FetchResult.success ⟨⟨"n"⟩, ⟨⟨[⟨"col", "string", 0⟩]⟩, [["v"]]⟩⟩ 3 4) "u" "h" "t" =
      consumePage (fun _ _ =>
        FetchResult.success ⟨⟨"n"⟩, ⟨⟨[]⟩, [["v"]]⟩⟩ 3 4) "u" "h" "t" :=
  consumePage_header_independent ⟨⟨"n"⟩, ⟨⟨[⟨"col", "string", 0⟩]⟩, [["v"]]⟩⟩
    ⟨⟨"n"⟩, ⟨⟨[]⟩, [["v"]]⟩⟩ 3 4 "u" "h" "t" rfl rfl

end DataProxy
